import Mathlib

/-!
Verification of the resume-analysis core (`src/llm_engine.py`) against its
natural-language specification.

The Python code is shallowly embedded: Python values that can flow through
`json.loads`, `str`, `float` and the field coercers are modelled by the
inductive type `PyVal`; Python floats by `PyFloat` (exact rationals inside the
binary64 range, plus infinities and NaN); fallible Python code by
`Except String`.  String operations are re-implemented over `List Char` so
that every definition is executable and reduces inside the kernel.

All definitions in the first half of the file are direct translations of the
functions of `LLMEngine` in `src/llm_engine.py`; the Python names are kept
without the leading underscore.  Theorems about the frozen claims follow.
-/

set_option maxRecDepth 100000

namespace ResumeMatcher

/-! ### Character and string utilities (ASCII fragment of the Python str API) -/

/-- Whitespace set stripped by Python `str.strip()` (ASCII fragment). -/
def isPyWs (c : Char) : Bool :=
  c = ' ' || c = '\t' || c = '\n' || c = '\x0d' || c = (Char.ofNat 0x0b) || c = (Char.ofNat 0x0c)

/-- Python `str.strip()` on a character list. -/
def stripChars (cs : List Char) : List Char :=
  ((cs.dropWhile isPyWs).reverse.dropWhile isPyWs).reverse

/-- Python `str.strip()`. -/
def pystrip (s : String) : String :=
  String.mk (stripChars s.toList)

/-- Python `str.lower()` (ASCII fragment). -/
def pylower (s : String) : String :=
  String.mk (s.toList.map Char.toLower)

/-- Python `str.upper()` (ASCII fragment). -/
def pyupper (s : String) : String :=
  String.mk (s.toList.map Char.toUpper)

/-- Python slicing `s[:n]` (as used for the cache key and prompt bounds). -/
def pytake (s : String) (n : Nat) : String :=
  String.mk (s.toList.take n)

/-- Python slicing `s[n:]`. -/
def pydrop (s : String) (n : Nat) : String :=
  String.mk (s.toList.drop n)

/-- Is `n` a prefix of `h`? -/
def isPrefixCh : List Char → List Char → Bool
  | [], _ => true
  | _ :: _, [] => false
  | a :: as, b :: bs => a = b && isPrefixCh as bs

/-- Is `n` a contiguous substring of `h`?  Models Python `n in h`. -/
def isInfixCh (n : List Char) : List Char → Bool
  | [] => n.isEmpty
  | b :: bs => isPrefixCh n (b :: bs) || isInfixCh n bs

/-- Python `needle in hay` on strings. -/
def strContains (hay needle : String) : Bool :=
  isInfixCh needle.toList hay.toList

/-- Python `s.startswith(p)`. -/
def startsWithS (s p : String) : Bool :=
  isPrefixCh p.toList s.toList

/-- Does the lowered string contain any of the given needles?  Models
`re.search(r'(a|b|c)', line_lower)` used by the section scanners. -/
def containsAny (hay : String) (needles : List String) : Bool :=
  needles.any (fun n => strContains hay n)

/-- Split on a single character; keeps empty pieces (Python `s.split(c)`
for a one-character separator). -/
def splitOnCharList (sep : Char) : List Char → List (List Char)
  | [] => [[]]
  | c :: cs =>
    if c = sep then
      [] :: splitOnCharList sep cs
    else
      match splitOnCharList sep cs with
      | [] => [[c]]
      | p :: ps => (c :: p) :: ps

/-- Python `s.split(sep)` for a one-character separator. -/
def pysplitChar (s : String) (sep : Char) : List String :=
  (splitOnCharList sep s.toList).map String.mk

/-- Fuelled splitter on a multi-character separator; `splitOnStrAux` keeps
empty pieces, like Python `s.split(sep)` for a nonempty separator. -/
def splitOnStrAux (sep : List Char) : Nat → List Char → List (List Char)
  | 0, cs => [cs]
  | _ + 1, [] => [[]]
  | fuel + 1, c :: cs =>
    if isPrefixCh sep (c :: cs) then
      [] :: splitOnStrAux sep fuel ((c :: cs).drop sep.length)
    else
      match splitOnStrAux sep fuel cs with
      | [] => [[c]]
      | p :: ps => (c :: p) :: ps

/-- Python `s.split(sep)` for a nonempty multi-character separator. -/
def pysplitStr (s sep : String) : List String :=
  ((splitOnStrAux sep.toList (s.toList.length + 1) s.toList).map String.mk)

/-- Python `s.split()` with no argument: split on whitespace runs,
dropping empty pieces.  Used for the word count in the name heuristic. -/
def pywords (s : String) : List String :=
  ((splitOnCharList ' ' (s.toList.map fun c => if isPyWs c then ' ' else c)).map
      String.mk).filter (fun w => w ≠ "")

/-- First index of a character, or `none` (Python `s.find(c)` / `-1`). -/
def idxOfCh (c : Char) : List Char → Option Nat
  | [] => none
  | b :: bs =>
    if b = c then some 0
    else (idxOfCh c bs).map (· + 1)

/-- Last index of a character, or `none` (Python `s.rfind(c)` / `-1`). -/
def lastIdxOfCh (c : Char) (cs : List Char) : Option Nat :=
  match idxOfCh c cs.reverse with
  | none => none
  | some i => some (cs.length - 1 - i)

/-- Are there `n` consecutive decimal digits starting right here? -/
def digitsHere : Nat → List Char → Bool
  | 0, _ => true
  | _ + 1, [] => false
  | n + 1, c :: cs => c.isDigit && digitsHere n cs

/-- Does the string contain `\d{4}` (4 consecutive digits) anywhere? -/
def hasFourDigitsCh : List Char → Bool
  | [] => false
  | c :: cs => digitsHere 4 (c :: cs) || hasFourDigitsCh cs

def hasFourDigits (s : String) : Bool :=
  hasFourDigitsCh s.toList

/-- `'\x7b'` written without a brace character. -/
def lbrace : Char := Char.ofNat 0x7b

/-- `'\x7d'` written without a brace character. -/
def rbrace : Char := Char.ofNat 0x7d

/-! ### Python floats

CPython floats are binary64.  The model keeps the parsed value as an exact
rational while it is inside the binary64 range and collapses it to `inf` /
`neginf` beyond the rounding boundary `2^1024 - 2^970` (the smallest real
that `strtod` rounds to infinity); rounding of in-range values to the nearest
double is not modelled (the claims only observe the integer truncation of
scores, which rounding does not change for the inputs at issue). -/

inductive PyFloat where
  | finite (q : ℚ)
  | inf
  | neginf
  | nan
deriving DecidableEq

/-- Smallest positive real that rounds to `+inf` in binary64.  Built with
`mkRat` so that it reduces inside the kernel. -/
def floatOverflowBound : ℚ := mkRat (2 ^ 1024 - 2 ^ 970 : ℕ) 1

/-- Number of decimal digits of `n` (`1` for `0`), fuelled structurally. -/
def numDigitsAux : Nat → Nat → Nat
  | 0, _ => 1
  | fuel + 1, n => if n < 10 then 1 else numDigitsAux fuel (n / 10) + 1

def numDigits (n : Nat) : Nat := numDigitsAux n n

/-- Build the float denoted by the decimal `(-1)^neg * m * 10^(e - fdigits)`
(`m` = all mantissa digits as an integer, `fdigits` = number of fractional
digits, `e` = explicit exponent).  Magnitude pre-guards keep the definition
executable for absurdly large exponents. -/
def makeFinite (neg : Bool) (m : Nat) (fdigits : Nat) (e : Int) : PyFloat :=
  if m = 0 then PyFloat.finite 0
  else
    let mag : Int := (numDigits m : Nat) + e - fdigits
    if 310 ≤ mag then (if neg then PyFloat.neginf else PyFloat.inf)
    else if mag < -320 then PyFloat.finite 0
    else
      let k : Int := e - fdigits
      let q : ℚ :=
        if 0 ≤ k then mkRat (m * 10 ^ k.toNat : ℕ) 1
        else mkRat m (10 ^ (-k).toNat)
      let q : ℚ := if neg then Rat.neg q else q
      if Rat.blt (Rat.neg floatOverflowBound) q = false then PyFloat.neginf
      else if Rat.blt q floatOverflowBound = false then PyFloat.inf
      else PyFloat.finite q

def digitVal (c : Char) : Nat := c.toNat - 48

/-- Consume a run of decimal digits (no separators): value, digit count, rest. -/
def digitsRunAux (acc cnt : Nat) : List Char → (Nat × Nat × List Char)
  | [] => (acc, cnt, [])
  | c :: cs =>
    if c.isDigit then digitsRunAux (acc * 10 + digitVal c) (cnt + 1) cs
    else (acc, cnt, c :: cs)

/-- Consume a run of decimal digits in which single underscores may appear
between digits (accepted by Python `float()` since 3.6): value, digit count,
rest.  A trailing or doubled underscore is left unconsumed. -/
def digitsUSAux (acc cnt : Nat) : List Char → (Nat × Nat × List Char)
  | [] => (acc, cnt, [])
  | c :: cs =>
    if c.isDigit then digitsUSAux (acc * 10 + digitVal c) (cnt + 1) cs
    else if c = '_' then
      match cs with
      | d :: cs2 =>
        if d.isDigit then digitsUSAux (acc * 10 + digitVal d) (cnt + 1) cs2
        else (acc, cnt, c :: d :: cs2)
      | [] => (acc, cnt, [c])
    else (acc, cnt, c :: cs)

/-- Case-insensitive literal match (pattern given in lowercase); returns the
rest of the input on success. -/
def matchCIAux : List Char → List Char → Option (List Char)
  | [], cs => some cs
  | _ :: _, [] => none
  | p :: ps, c :: cs => if c.toLower = p then matchCIAux ps cs else none

/-- Model of CPython `float(s)` on the ASCII fragment: optional surrounding
whitespace, optional sign, then `inf`/`infinity`/`nan` (case-insensitive) or
a decimal with optional fraction, exponent and digit-group underscores.
Returns `none` where `float()` raises `ValueError`. -/
def pyFloatOfString (s : String) : Option PyFloat :=
  let cs := stripChars s.toList
  let (neg, cs) :=
    match cs with
    | '+' :: r => (false, r)
    | '-' :: r => (true, r)
    | r => (false, r)
  match matchCIAux ['i', 'n', 'f', 'i', 'n', 'i', 't', 'y'] cs with
  | some [] => some (if neg then PyFloat.neginf else PyFloat.inf)
  | _ =>
    match matchCIAux ['i', 'n', 'f'] cs with
    | some [] => some (if neg then PyFloat.neginf else PyFloat.inf)
    | _ =>
      match matchCIAux ['n', 'a', 'n'] cs with
      | some [] => some PyFloat.nan
      | _ =>
        -- decimal form: [digits][.digits][(e|E)[sign]digits]
        let (ip, ipCnt, r1) :=
          match cs with
          | c :: _ => if c.isDigit then digitsUSAux 0 0 cs else (0, 0, cs)
          | [] => (0, 0, cs)
        let (m, fCnt, r2) :=
          match r1 with
          | '.' :: r =>
            match r with
            | c :: _ => if c.isDigit then digitsUSAux ip 0 r else (ip, 0, r)
            | [] => (ip, 0, r)
          | _ => (ip, 0, r1)
        if ipCnt + fCnt = 0 then none
        else
          match r2 with
          | [] => some (makeFinite neg m fCnt 0)
          | e :: r3 =>
            if e = 'e' || e = 'E' then
              let (eneg, r4) :=
                match r3 with
                | '+' :: r => (false, r)
                | '-' :: r => (true, r)
                | r => (false, r)
              match r4 with
              | c :: _ =>
                if c.isDigit then
                  match digitsUSAux 0 0 r4 with
                  | (ev, _, []) =>
                    some (makeFinite neg m fCnt (if eneg then -(ev : Int) else (ev : Int)))
                  | _ => none
                else none
              | [] => none
            else none

/-! ### Python values -/

/-- The Python values that can flow through `json.loads`, the coercers and
`str()` in `llm_engine.py`. -/
inductive PyVal where
  | vNone
  | vBool (b : Bool)
  | vInt (n : Int)
  | vFloat (f : PyFloat)
  | vStr (s : String)
  | vList (xs : List PyVal)
  | vDict (kvs : List (String × PyVal))

/-- Python truthiness (`if v:`). -/
def pyTruthy : PyVal → Bool
  | .vNone => false
  | .vBool b => b
  | .vInt n => n ≠ 0
  | .vFloat f => f ≠ PyFloat.finite 0
  | .vStr s => s ≠ ""
  | .vList xs => !xs.isEmpty
  | .vDict kvs => !kvs.isEmpty

/-- Decimal digits of a natural number (fuelled, fuel ≥ 1 suffices per digit). -/
def natDigitsAux : Nat → Nat → List Char → List Char
  | 0, _, acc => acc
  | fuel + 1, n, acc =>
    if n < 10 then Char.ofNat (48 + n) :: acc
    else natDigitsAux fuel (n / 10) (Char.ofNat (48 + n % 10) :: acc)

/-- Python `str(n)` for a natural number. -/
def natStr (n : Nat) : String := String.mk (natDigitsAux (n + 1) n [])

/-- Python `str(i)` for an integer. -/
def intStr (i : Int) : String :=
  if i < 0 then "-" ++ natStr i.natAbs else natStr i.natAbs

/-- Decimal expansion of `num/den` (`num < den`), up to `fuel` digits.
17 digits are kept, mirroring the precision of CPython float repr; the
tail truncation for non-terminating expansions is a documented
approximation of shortest-roundtrip rendering. -/
def fracDigitsAux : Nat → Nat → Nat → List Char
  | 0, _, _ => []
  | fuel + 1, num, den =>
    if num = 0 then []
    else
      let num10 := num * 10
      Char.ofNat (48 + num10 / den) :: fracDigitsAux fuel (num10 % den) den

/-- Python `str(f)` for a float (`str(5.0) = "5.0"`, `str(73.9) = "73.9"`;
the scientific-notation thresholds of CPython repr are not modelled — no
claim observes the rendering of floats). -/
def floatRepr : PyFloat → String
  | .inf => "inf"
  | .neginf => "-inf"
  | .nan => "nan"
  | .finite q =>
    let sign := if Rat.blt q 0 then "-" else ""
    let n := q.num.natAbs
    let d := q.den
    let frac := fracDigitsAux 17 (n % d) d
    sign ++ natStr (n / d) ++ "." ++ (if frac.isEmpty then "0" else String.mk frac)

/-- Python `repr(v)`, fuelled on nesting depth (`pyRepr` supplies ample
fuel); containers render their items with `repr`, strings with single
quotes (quote escaping inside strings is not modelled — no claim observes
the rendering of containers). -/
def pyReprAux : Nat → PyVal → String
  | _, .vNone => "None"
  | _, .vBool b => if b then "True" else "False"
  | _, .vInt n => intStr n
  | _, .vFloat f => floatRepr f
  | _, .vStr s => "\x27" ++ s ++ "\x27"
  | 0, .vList _ => "[...]"
  | 0, .vDict _ => "\x7b...\x7d"
  | fuel + 1, .vList xs =>
    "[" ++ String.intercalate ", " (xs.map (pyReprAux fuel)) ++ "]"
  | fuel + 1, .vDict kvs =>
    "\x7b" ++
      String.intercalate ", "
        (kvs.map fun kv => "\x27" ++ kv.1 ++ "\x27: " ++ pyReprAux fuel kv.2) ++
      "\x7d"

/-- Nesting-depth bound used to fuel `pyReprAux`. -/
def pyDepthFuel : Nat → List PyVal → Nat
  | 0, _ => 1
  | _ + 1, [] => 1
  | fuel + 1, v :: vs =>
    let dv :=
      match v with
      | .vList xs => pyDepthFuel fuel xs + 1
      | .vDict kvs => pyDepthFuel fuel (kvs.map Prod.snd) + 1
      | _ => 1
    max dv (pyDepthFuel fuel vs)

/-- Python `repr(v)`. -/
def pyRepr (v : PyVal) : String := pyReprAux (pyDepthFuel 1000000 [v]) v

/-- Python `str(v)`: the string itself for strings, `repr` otherwise
(matching `str` on ints, floats, bools, `None`, lists and dicts). -/
def pyStr : PyVal → String
  | .vStr s => s
  | v => pyRepr v

/-- Python `d.get(k, default)` on a dict. -/
def dictGet (kvs : List (String × PyVal)) (k : String) (default : PyVal) : PyVal :=
  match kvs.lookup k with
  | some v => v
  | none => default

/-- Python dict insertion `d[k] = v`: replaces in place, else appends. -/
def dictInsert (kvs : List (String × PyVal)) (k : String) (v : PyVal) :
    List (String × PyVal) :=
  if kvs.any (fun kv => kv.1 = k) then
    kvs.map fun kv => if kv.1 = k then (k, v) else kv
  else kvs ++ [(k, v)]

/-! ### Model of `json.loads`

Strict JSON per the CPython `json` module: the four structured whitespace
characters, `true`/`false`/`null`, the CPython extensions `NaN`, `Infinity`,
`-Infinity`, numbers per the scanner's regular expression
(`-?(0|[1-9]\d*)(\.\d+)?([eE][-+]?\d+)?`), strings with the standard escapes
and `\uXXXX` (surrogate pairs combined; a lone surrogate — unrepresentable in
a Lean `Char` — degrades to U+FFFD), arrays, and objects with string keys
where a duplicated key keeps its first position and last value.  All parsing
functions are fuelled so they are structurally recursive and reduce in the
kernel. -/

def jsonWsCh (c : Char) : Bool :=
  c = ' ' || c = '\t' || c = '\n' || c = '\x0d'

def skipWs (cs : List Char) : List Char := cs.dropWhile jsonWsCh

def hexDigitVal (c : Char) : Option Nat :=
  if c.isDigit then some (c.toNat - 48)
  else if 'a' ≤ c && c ≤ 'f' then some (c.toNat - 87)
  else if 'A' ≤ c && c ≤ 'F' then some (c.toNat - 55)
  else none

/-- Four hex digits. -/
def parseHex4 : List Char → Option (Nat × List Char)
  | a :: b :: c :: d :: rest =>
    match hexDigitVal a, hexDigitVal b, hexDigitVal c, hexDigitVal d with
    | some x, some y, some z, some w => some (((x * 16 + y) * 16 + z) * 16 + w, rest)
    | _, _, _, _ => none
  | _ => none

/-- JSON string body (after the opening quote), fuelled. -/
def parseStrAux : Nat → List Char → List Char → Option (String × List Char)
  | 0, _, _ => none
  | fuel + 1, acc, cs =>
    match cs with
    | [] => none
    | '"' :: rest => some (String.mk acc.reverse, rest)
    | '\\' :: rest =>
      match rest with
      | [] => none
      | e :: rest2 =>
        if e = '"' then parseStrAux fuel ('"' :: acc) rest2
        else if e = '\\' then parseStrAux fuel ('\\' :: acc) rest2
        else if e = '/' then parseStrAux fuel ('/' :: acc) rest2
        else if e = 'b' then parseStrAux fuel ('\x08' :: acc) rest2
        else if e = 'f' then parseStrAux fuel (Char.ofNat 0x0c :: acc) rest2
        else if e = 'n' then parseStrAux fuel ('\n' :: acc) rest2
        else if e = 'r' then parseStrAux fuel ('\x0d' :: acc) rest2
        else if e = 't' then parseStrAux fuel ('\t' :: acc) rest2
        else if e = 'u' then
          match parseHex4 rest2 with
          | none => none
          | some (n1, rest3) =>
            if 0xd800 ≤ n1 && n1 < 0xdc00 then
              match rest3 with
              | '\\' :: 'u' :: rest4 =>
                match parseHex4 rest4 with
                | some (n2, rest5) =>
                  if 0xdc00 ≤ n2 && n2 < 0xe000 then
                    let code := 0x10000 + (n1 - 0xd800) * 0x400 + (n2 - 0xdc00)
                    parseStrAux fuel (Char.ofNat code :: acc) rest5
                  else parseStrAux fuel (Char.ofNat 0xfffd :: acc) ('\\' :: 'u' :: rest4)
                | none => parseStrAux fuel (Char.ofNat 0xfffd :: acc) rest3
              | _ => parseStrAux fuel (Char.ofNat 0xfffd :: acc) rest3
            else if 0xdc00 ≤ n1 && n1 < 0xe000 then
              parseStrAux fuel (Char.ofNat 0xfffd :: acc) rest3
            else parseStrAux fuel (Char.ofNat n1 :: acc) rest3
        else none
    | c :: rest =>
      if c.toNat < 0x20 then none else parseStrAux fuel (c :: acc) rest

/-- JSON number per the CPython scanner's regular expression.  An integer
literal yields `vInt`; a fraction or exponent yields a float built by
`makeFinite` (so `1e400` overflows to `inf` exactly as `float()` does). -/
def parseJsonNumber (cs : List Char) : Option (PyVal × List Char) :=
  let (neg, cs1) :=
    match cs with
    | '-' :: r => (true, r)
    | r => (false, r)
  match cs1 with
  | [] => none
  | c :: rest =>
    if !c.isDigit then none
    else
      let (ip, _, r1) :=
        if c = '0' then (0, 1, rest) else digitsRunAux 0 0 (c :: rest)
      let fracRes : Option (Nat × Nat × List Char) :=
        match r1 with
        | '.' :: d :: r =>
          if d.isDigit then some (digitsRunAux ip 0 (d :: r)) else none
        | _ => some (ip, 0, r1)
      match fracRes with
      | none => none
      | some (m, fCnt, r2) =>
        let expRes : Option (Option Int × List Char) :=
          match r2 with
          | e :: r3 =>
            if e = 'e' || e = 'E' then
              let (eneg, r4) :=
                match r3 with
                | '+' :: r => (false, r)
                | '-' :: r => (true, r)
                | r => (false, r)
              match r4 with
              | d :: r5 =>
                if d.isDigit then
                  let (ev, _, r6) := digitsRunAux 0 0 (d :: r5)
                  some (some (if eneg then -(ev : Int) else (ev : Int)), r6)
                else none
              | [] => none
            else some (none, r2)
          | [] => some (none, r2)
        match expRes with
        | none => none
        | some (eo, rest') =>
          match eo, fCnt with
          | none, 0 =>
            some (.vInt (if neg then -(m : Int) else (m : Int)), rest')
          | _, _ =>
            some (.vFloat (makeFinite neg m fCnt (eo.getD 0)), rest')

/-- Comma-separated array items after the first opening context, via the
element parser `f`; positioned at the start of an element. -/
def parseSeqWith (f : List Char → Option (PyVal × List Char)) :
    Nat → List PyVal → List Char → Option (List PyVal × List Char)
  | 0, _, _ => none
  | fuel + 1, acc, cs =>
    match f cs with
    | none => none
    | some (v, r1) =>
      match skipWs r1 with
      | ',' :: r2 => parseSeqWith f fuel (v :: acc) (skipWs r2)
      | c :: r2 => if c = ']' then some ((v :: acc).reverse, r2) else none
      | [] => none

/-- Comma-separated object members via the value parser `f`; positioned at
the start of a key. -/
def parsePairsWith (f : List Char → Option (PyVal × List Char)) :
    Nat → List (String × PyVal) → List Char →
    Option (List (String × PyVal) × List Char)
  | 0, _, _ => none
  | fuel + 1, acc, cs =>
    match cs with
    | '"' :: rest =>
      match parseStrAux (rest.length + 1) [] rest with
      | none => none
      | some (k, r1) =>
        match skipWs r1 with
        | ':' :: r2 =>
          match f (skipWs r2) with
          | none => none
          | some (v, r3) =>
            let acc2 := dictInsert acc k v
            match skipWs r3 with
            | ',' :: r4 => parsePairsWith f fuel acc2 (skipWs r4)
            | c :: r4 => if c = rbrace then some (acc2, r4) else none
            | [] => none
        | _ => none
    | _ => none

/-- JSON value, fuelled on nesting depth. -/
def parseValue : Nat → List Char → Option (PyVal × List Char)
  | 0, _ => none
  | fuel + 1, cs =>
    match cs with
    | [] => none
    | c :: rest =>
      if isPrefixCh ['t', 'r', 'u', 'e'] cs then some (.vBool true, cs.drop 4)
      else if isPrefixCh ['f', 'a', 'l', 's', 'e'] cs then some (.vBool false, cs.drop 5)
      else if isPrefixCh ['n', 'u', 'l', 'l'] cs then some (.vNone, cs.drop 4)
      else if isPrefixCh ['N', 'a', 'N'] cs then some (.vFloat PyFloat.nan, cs.drop 3)
      else if isPrefixCh ['I', 'n', 'f', 'i', 'n', 'i', 't', 'y'] cs then
        some (.vFloat PyFloat.inf, cs.drop 8)
      else if isPrefixCh ['-', 'I', 'n', 'f', 'i', 'n', 'i', 't', 'y'] cs then
        some (.vFloat PyFloat.neginf, cs.drop 9)
      else if c = '"' then
        match parseStrAux (rest.length + 1) [] rest with
        | some (s, r) => some (.vStr s, r)
        | none => none
      else if c = '[' then
        match skipWs rest with
        | ']' :: r => some (.vList [], r)
        | body => (parseSeqWith (parseValue fuel) (body.length + 1) [] body).map
            fun p => (.vList p.1, p.2)
      else if c = lbrace then
        match skipWs rest with
        | d :: r =>
          if d = rbrace then some (.vDict [], r)
          else (parsePairsWith (parseValue fuel) ((d :: r).length + 1) [] (d :: r)).map
            fun p => (.vDict p.1, p.2)
        | [] => none
      else if c = '-' || c.isDigit then parseJsonNumber cs
      else none

/-- Model of `json.loads(s)`: `none` where it raises `JSONDecodeError`. -/
def json_parse (s : String) : Option PyVal :=
  let cs := s.toList
  match parseValue (cs.length + 1) (skipWs cs) with
  | some (v, rest) => if skipWs rest = [] then some v else none
  | none => none

/-! ### MD5 and the cache key

`_get_cache_key` hashes `f"{resume_text[:1000]}|{job_desc[:500]}".encode()`
with `hashlib.md5` and returns the lowercase hex digest.  MD5 is implemented
below over byte lists, with 32-bit words as `Nat` values reduced mod `2^32`. -/

/-- UTF-8 encoding of a string (Python `str.encode()`). -/
def utf8Bytes (s : String) : List Nat :=
  s.toList.flatMap fun c =>
    let n := c.toNat
    if n < 0x80 then [n]
    else if n < 0x800 then [0xc0 + n / 64, 0x80 + n % 64]
    else if n < 0x10000 then [0xe0 + n / 4096, 0x80 + n / 64 % 64, 0x80 + n % 64]
    else [0xf0 + n / 262144, 0x80 + n / 4096 % 64, 0x80 + n / 64 % 64, 0x80 + n % 64]

def u32 (n : Nat) : Nat := n % 4294967296

def not32 (n : Nat) : Nat := 4294967295 - n

/-- Rotate a 32-bit word left by `s` (for `x < 2^32`, `0 < s < 32`). -/
def rotl32 (x s : Nat) : Nat :=
  (x % 2 ^ (32 - s)) * 2 ^ s + x / 2 ^ (32 - s)

/-- The 64 MD5 sine constants. -/
def md5K : List Nat :=
  [0xd76aa478, 0xe8c7b756, 0x242070db, 0xc1bdceee,
   0xf57c0faf, 0x4787c62a, 0xa8304613, 0xfd469501,
   0x698098d8, 0x8b44f7af, 0xffff5bb1, 0x895cd7be,
   0x6b901122, 0xfd987193, 0xa679438e, 0x49b40821,
   0xf61e2562, 0xc040b340, 0x265e5a51, 0xe9b6c7aa,
   0xd62f105d, 0x02441453, 0xd8a1e681, 0xe7d3fbc8,
   0x21e1cde6, 0xc33707d6, 0xf4d50d87, 0x455a14ed,
   0xa9e3e905, 0xfcefa3f8, 0x676f02d9, 0x8d2a4c8a,
   0xfffa3942, 0x8771f681, 0x6d9d6122, 0xfde5380c,
   0xa4beea44, 0x4bdecfa9, 0xf6bb4b60, 0xbebfbc70,
   0x289b7ec6, 0xeaa127fa, 0xd4ef3085, 0x04881d05,
   0xd9d4d039, 0xe6db99e5, 0x1fa27cf8, 0xc4ac5665,
   0xf4292244, 0x432aff97, 0xab9423a7, 0xfc93a039,
   0x655b59c3, 0x8f0ccc92, 0xffeff47d, 0x85845dd1,
   0x6fa87e4f, 0xfe2ce6e0, 0xa3014314, 0x4e0811a1,
   0xf7537e82, 0xbd3af235, 0x2ad7d2bb, 0xeb86d391]

/-- The 64 MD5 per-step left-rotation amounts. -/
def md5S : List Nat :=
  [7, 12, 17, 22, 7, 12, 17, 22, 7, 12, 17, 22, 7, 12, 17, 22,
   5, 9, 14, 20, 5, 9, 14, 20, 5, 9, 14, 20, 5, 9, 14, 20,
   4, 11, 16, 23, 4, 11, 16, 23, 4, 11, 16, 23, 4, 11, 16, 23,
   6, 10, 15, 21, 6, 10, 15, 21, 6, 10, 15, 21, 6, 10, 15, 21]

def md5F (i b c d : Nat) : Nat :=
  if i < 16 then Nat.lor (Nat.land b c) (Nat.land (not32 b) d)
  else if i < 32 then Nat.lor (Nat.land d b) (Nat.land (not32 d) c)
  else if i < 48 then Nat.xor b (Nat.xor c d)
  else Nat.xor c (Nat.lor b (not32 d))

def md5G (i : Nat) : Nat :=
  if i < 16 then i
  else if i < 32 then (5 * i + 1) % 16
  else if i < 48 then (3 * i + 5) % 16
  else (7 * i) % 16

def md5Step (M : List Nat) (st : Nat × Nat × Nat × Nat) (i : Nat) :
    Nat × Nat × Nat × Nat :=
  let (a, b, c, d) := st
  let f := u32 (md5F i b c d + a + md5K.getD i 0 + M.getD (md5G i) 0)
  (d, u32 (b + rotl32 f (md5S.getD i 0)), b, c)

/-- Little-endian 32-bit words of a byte list (length a multiple of 4). -/
def leWords : List Nat → List Nat
  | b0 :: b1 :: b2 :: b3 :: rest =>
    (b0 + 256 * (b1 + 256 * (b2 + 256 * b3))) :: leWords rest
  | _ => []

/-- One MD5 compression of a 64-byte block. -/
def md5Compress (st : Nat × Nat × Nat × Nat) (block : List Nat) :
    Nat × Nat × Nat × Nat :=
  let M := leWords block
  let (a, b, c, d) := (List.range 64).foldl (md5Step M) st
  let (a0, b0, c0, d0) := st
  (u32 (a0 + a), u32 (b0 + b), u32 (c0 + c), u32 (d0 + d))

/-- Process a padded message in 64-byte blocks (fuelled). -/
def md5Blocks : Nat → (Nat × Nat × Nat × Nat) → List Nat → Nat × Nat × Nat × Nat
  | 0, st, _ => st
  | _ + 1, st, [] => st
  | fuel + 1, st, bytes => md5Blocks fuel (md5Compress st (bytes.take 64)) (bytes.drop 64)

/-- The 8 little-endian bytes of `n` (the 64-bit bit-length field). -/
def leBytes8 (n : Nat) : List Nat :=
  (List.range 8).map fun i => n / 256 ^ i % 256

/-- MD5 padding: `0x80`, zeros to 56 mod 64, then the 64-bit bit length. -/
def md5Pad (msg : List Nat) : List Nat :=
  let len := msg.length
  let z := (56 + 64 - (len + 1) % 64) % 64
  msg ++ [0x80] ++ List.replicate z 0 ++ leBytes8 (8 * len % 2 ^ 64)

def hexDigitCh (n : Nat) : Char :=
  if n < 10 then Char.ofNat (48 + n) else Char.ofNat (87 + n)

def byteHexCh (b : Nat) : List Char := [hexDigitCh (b / 16), hexDigitCh (b % 16)]

/-- Lowercase hex MD5 digest of a byte list (`hashlib.md5(...).hexdigest()`). -/
def md5hex (bytes : List Nat) : String :=
  let padded := md5Pad bytes
  let (a, b, c, d) :=
    md5Blocks (padded.length / 64 + 1) (0x67452301, 0xefcdab89, 0x98badcfe, 0x10325476) padded
  String.mk
    (([a, b, c, d].flatMap fun w => (List.range 4).map fun i => w / 256 ^ i % 256).flatMap byteHexCh)

/-- `LLMEngine._get_cache_key`:
`hashlib.md5(f"{resume_text[:1000]}|{job_desc[:500]}".encode()).hexdigest()`. -/
def get_cache_key (resume_text job_desc : String) : String :=
  md5hex (utf8Bytes (pytake resume_text 1000 ++ "|" ++ pytake job_desc 500))

/-! ### Record types of the analysis result -/

structure PersonalInfo where
  name : String
  email : String
  phone : String
deriving DecidableEq

structure ExperienceEntry where
  role : String
  company : String
  duration : String
  details : List String
deriving DecidableEq

structure EducationEntry where
  degree : String
  institution : String
  year : String
deriving DecidableEq

/-- The canonical output record built by `_build_result` (its eight keys). -/
structure AnalysisResult where
  personal_info : PersonalInfo
  summary : String
  skills : List String
  missing_keywords : List String
  match_score : Int
  experience : List ExperienceEntry
  education : List EducationEntry
  cover_letter : String
deriving DecidableEq

/-! ### Field coercers (`_extract_list`, `_extract_score`) -/

/-- The list branch of `_extract_list`:
`[str(item).strip() for item in data if item and str(item).strip()]`. -/
def extractListItems : List PyVal → List String
  | [] => []
  | x :: xs =>
    if pyTruthy x && pystrip (pyStr x) ≠ "" then
      pystrip (pyStr x) :: extractListItems xs
    else extractListItems xs

/-- The string branch of `_extract_list`:
`[item.strip() for item in data.split(',') if item.strip()]`. -/
def extractCommaItems : List String → List String
  | [] => []
  | x :: xs =>
    if pystrip x ≠ "" then pystrip x :: extractCommaItems xs
    else extractCommaItems xs

/-- `LLMEngine._extract_list`. -/
def extract_list : PyVal → List String
  | .vList xs => extractListItems xs
  | .vStr s => extractCommaItems (pysplitChar s ',')
  | _ => []

/-- `int(f)` truncates toward zero. -/
def truncQ (q : ℚ) : Int := Int.tdiv q.num q.den

def overflowErrorText : String :=
  "OverflowError: cannot convert float infinity to integer"

/-- `LLMEngine._extract_score`: `max(0, min(100, int(float(str(score)))))`
with `except (ValueError, TypeError): return 0`.  `float(str(score))` can
only raise `ValueError` (caught); `int()` of a NaN raises `ValueError`
(caught) but `int()` of an infinity raises `OverflowError`, which the
handler does not catch — modelled as the `Except.error` case. -/
def extract_score (score : PyVal) : Except String Int :=
  match pyFloatOfString (pyStr score) with
  | none => .ok 0
  | some PyFloat.nan => .ok 0
  | some PyFloat.inf => .error overflowErrorText
  | some PyFloat.neginf => .error overflowErrorText
  | some (PyFloat.finite q) => .ok (max 0 (min 100 (truncQ q)))

/-! ### Fallback extractors -/

/-- The fixed catalog scanned by `_extract_skills_fallback`. -/
def common_skills : List String :=
  ["Python", "JavaScript", "Java", "C++", "SQL", "AWS", "Azure", "Docker",
   "Kubernetes", "React", "Node.js", "Machine Learning", "Data Analysis",
   "Project Management", "Agile", "Git", "Linux", "Communication", "Leadership"]

/-- `LLMEngine._extract_skills_fallback`: case-insensitive substring search
of the resume against the catalog; up to 8 matches, else a 3-item
placeholder list. -/
def extract_skills_fallback (resume_text : String) : List String :=
  let resume_upper := pyupper resume_text
  let found_skills := common_skills.filter fun skill => strContains resume_upper (pyupper skill)
  if found_skills.isEmpty then ["Technical Skills", "Problem Solving", "Team Collaboration"]
  else found_skills.take 8

/-- `LLMEngine._generate_fallback_summary` (a fixed template). -/
def generate_fallback_summary (resume_text job_desc : String) : String :=
  let _ := resume_text
  let _ := job_desc
  "Experienced professional with demonstrated expertise in technical domains. Proven ability to deliver results and collaborate effectively with cross-functional teams. Seeking to contribute skills and drive innovation in a challenging environment."

/-- `LLMEngine._generate_fallback_cover_letter`: a fixed template closed by
`{name or 'Applicant'}`. -/
def generate_fallback_cover_letter (name job_desc : String) : String :=
  let _ := job_desc
  "Dear Hiring Manager,\n\nI am writing to express my strong interest in this position. With my background in technology and proven track record of success, I am confident I can make valuable contributions to your team. I look forward to discussing how my skills align with your needs.\n\nBest regards,\n" ++
    (if name = "" then "Applicant" else name)

/-- The bullet literal of the source file: the file stores the bytes of
`U+2022` decoded as Latin-1, i.e. the three characters U+00E2 U+20AC U+00A2. -/
def bulletMoji : String :=
  String.mk [Char.ofNat 0xe2, Char.ofNat 0x20ac, Char.ofNat 0xa2]

def isBulletStart (line : String) : Bool :=
  startsWithS line bulletMoji || startsWithS line ("-") || startsWithS line ("*")

/-- `line.lstrip('â€¢-* ')`: strip any leading characters of that set. -/
def lstripBulletSet (line : String) : String :=
  String.mk (line.toList.dropWhile fun c =>
    c = Char.ofNat 0xe2 || c = Char.ofNat 0x20ac || c = Char.ofNat 0xa2 ||
      c = '-' || c = '*' || c = ' ')

/-- `\s` of the `re` module (ASCII fragment). -/
def wsRe (c : Char) : Bool :=
  c = ' ' || c = '\t' || c = '\n' || c = '\x0d' || c = Char.ofNat 0x0b || c = Char.ofNat 0x0c

/-- Match `(\d{4})\s*-\s*(\d{4}|present)` (ignore-case) anchored here;
returns the matched text. -/
def tryDurationAt (cs : List Char) : Option (List Char) :=
  let d1 := cs.take 4
  if d1.length = 4 && d1.all Char.isDigit then
    let r1 := cs.drop 4
    let ws1 := r1.takeWhile wsRe
    match r1.dropWhile wsRe with
    | '-' :: r2 =>
      let ws2 := r2.takeWhile wsRe
      let r3 := r2.dropWhile wsRe
      let d2 := r3.take 4
      if d2.length = 4 && d2.all Char.isDigit then
        some (d1 ++ ws1 ++ '-' :: ws2 ++ d2)
      else if isPrefixCh ['p', 'r', 'e', 's', 'e', 'n', 't'] (r3.map Char.toLower) then
        some (d1 ++ ws1 ++ '-' :: ws2 ++ r3.take 7)
      else none
    | _ => none
  else none

/-- `re.search` of the duration pattern: leftmost match. -/
def searchDuration : List Char → Option String
  | [] => none
  | c :: cs =>
    match tryDurationAt (c :: cs) with
    | some m => some (String.mk m)
    | none => searchDuration cs

/-- `\w` of the `re` module (ASCII fragment). -/
def isWordCh (c : Char) : Bool := c.isAlphanum || c = '_'

/-- Match `\b(19|20)\d{2}\b` anchored here (`prev` = preceding character). -/
def tryYearAt (prev : Option Char) (cs : List Char) : Option String :=
  match cs with
  | a :: b :: c :: d :: rest =>
    if ((a = '1' && b = '9') || (a = '2' && b = '0')) && c.isDigit && d.isDigit then
      let okL := match prev with | none => true | some p => !isWordCh p
      let okR := match rest with | [] => true | r :: _ => !isWordCh r
      if okL && okR then some (String.mk [a, b, c, d]) else none
    else none
  | _ => none

/-- `re.search` of the year pattern: leftmost match. -/
def searchYear : Option Char → List Char → Option String
  | _, [] => none
  | prev, c :: cs =>
    match tryYearAt prev (c :: cs) with
    | some m => some m
    | none => searchYear (some c) cs

def expSectionRe (ll : String) : Bool :=
  containsAny ll ["experience", "employment", "work history"]

def expEndRe (ll : String) : Bool :=
  containsAny ll ["education", "skills", "certifications"]

/-- The scanning loop of `_extract_experience`.  Returns the accumulated
entries and the entry in progress at loop exit.  On the `break` path the
source appends the entry in progress and leaves `current_exp` set, so the
code after the loop appends it a second time; the model reproduces this. -/
def expLoop : List String → Bool → Option ExperienceEntry → List ExperienceEntry →
    (List ExperienceEntry × Option ExperienceEntry)
  | [], _, cur, acc => (acc, cur)
  | line :: rest, inExp, cur, acc =>
    let ll := pystrip (pylower line)
    if expSectionRe ll then expLoop rest true cur acc
    else if inExp && expEndRe ll then
      (match cur with | some c => acc ++ [c] | none => acc, cur)
    else if inExp && pystrip line ≠ "" then
      if line.toList.any Char.isUpper || hasFourDigits line then
        let acc2 := match cur with | some c => acc ++ [c] | none => acc
        let newE : ExperienceEntry :=
          { role := pystrip line, company := "Company Name",
            duration := (searchDuration line.toList).getD "", details := [] }
        expLoop rest inExp (some newE) acc2
      else if cur.isSome && isBulletStart line then
        let detail := pystrip (lstripBulletSet line)
        if detail ≠ "" then
          expLoop rest inExp (cur.map fun c => { c with details := c.details ++ [detail] }) acc
        else expLoop rest inExp cur acc
      else expLoop rest inExp cur acc
    else expLoop rest inExp cur acc

/-- The synthetic entry emitted when no experience is found. -/
def templateExperience : ExperienceEntry :=
  { role := "Professional Experience", company := "Previous Employer",
    duration := "Years",
    details := ["Led key projects and initiatives",
                "Collaborated with cross-functional teams",
                "Delivered measurable results"] }

/-- The scan of `_extract_experience` including the append of the entry
still in progress after the loop. -/
def expScanned (resume_text : String) : List ExperienceEntry :=
  let p := expLoop (pysplitChar resume_text '\n') false none []
  match p.2 with
  | some c => p.1 ++ [c]
  | none => p.1

/-- `LLMEngine._extract_experience`. -/
def extract_experience (resume_text : String) : List ExperienceEntry :=
  let experience := expScanned resume_text
  (if experience.isEmpty then [templateExperience] else experience).take 3

def eduSectionRe (ll : String) : Bool :=
  containsAny ll ["education", "academic", "degree"]

def eduEndRe (ll : String) : Bool :=
  containsAny ll ["experience", "skills", "certifications"]

def eduKeyword (ll : String) : Bool :=
  containsAny ll ["bachelor", "master", "phd", "degree", "university", "college"]

/-- The scanning loop of `_extract_education`. -/
def eduLoop : List String → Bool → List EducationEntry → List EducationEntry
  | [], _, acc => acc
  | line :: rest, inEdu, acc =>
    let ll := pystrip (pylower line)
    if eduSectionRe ll then eduLoop rest true acc
    else if inEdu && eduEndRe ll then acc
    else if inEdu && pystrip line ≠ "" then
      if eduKeyword ll then
        eduLoop rest inEdu
          (acc ++ [{ degree := pystrip line, institution := "",
                     year := (searchYear none line.toList).getD "" }])
      else eduLoop rest inEdu acc
    else eduLoop rest inEdu acc

/-- The synthetic entry emitted when no education is found. -/
def templateEducation : EducationEntry :=
  { degree := "Bachelor\x27s Degree", institution := "University", year := "" }

/-- `LLMEngine._extract_education`. -/
def extract_education (resume_text : String) : List EducationEntry :=
  let education := eduLoop (pysplitChar resume_text '\n') false []
  (if education.isEmpty then [templateEducation] else education).take 2

/-! ### Personal info (`_extract_personal_info`)

The e-mail and phone regular expressions are modelled by direct scanners.
The scanners follow the regular expressions on well-formed inputs; exotic
backtracking corners (e.g. the `|` inside the TLD character class of the
e-mail pattern) are simplified — no claim depends on the extracted values,
which flow through the pipeline as opaque strings. -/

def emailLocalCh (c : Char) : Bool :=
  c.isAlphanum || c = '.' || c = '_' || c = '%' || c = '+' || c = '-'

def emailDomainCh (c : Char) : Bool := c.isAlphanum || c = '.' || c = '-'

/-- Leftmost match of the e-mail pattern
`\b[A-Za-z0-9._%+-]+@[A-Za-z0-9.-]+\.[A-Z|a-z]{2,}\b`. -/
def emailScan : Option Char → List Char → Option String
  | _, [] => none
  | prev, c :: cs =>
    let fallThrough := emailScan (some c) cs
    if emailLocalCh c && (match prev with | some p => !emailLocalCh p | none => true) then
      let loc := (c :: cs).takeWhile emailLocalCh
      match (c :: cs).dropWhile emailLocalCh with
      | '@' :: r2 =>
        let dom := r2.takeWhile emailDomainCh
        match lastIdxOfCh '.' dom with
        | some i =>
          let tld := dom.drop (i + 1)
          if 2 ≤ tld.length && tld.all Char.isAlpha then
            some (String.mk (loc ++ '@' :: dom))
          else fallThrough
        | none => fallThrough
      | _ => fallThrough
    else fallThrough

/-- A `[-.\s]` separator character of the phone pattern. -/
def phoneSepCh (c : Char) : Bool := c = '-' || c = '.' || wsRe c

/-- Exactly `n` digits. -/
def takeDigitsN (n : Nat) (cs : List Char) : Option (List Char × List Char) :=
  let d := cs.take n
  if d.length = n && d.all Char.isDigit then some (d, cs.drop n) else none

/-- Match `\(?\d{3}\)?[-.\s]?\d{3}[-.\s]?\d{4}` anchored here. -/
def tryPhoneCore (cs : List Char) : Option (List Char) :=
  let (p1, r1) := match cs with | '(' :: r => (['('], r) | r => (([] : List Char), r)
  match takeDigitsN 3 r1 with
  | none => none
  | some (d1, r2) =>
    let (p2, r3) := match r2 with | ')' :: r => ([')'], r) | r => (([] : List Char), r)
    let (s1, r4) :=
      match r3 with
      | c :: r => if phoneSepCh c then ([c], r) else (([] : List Char), r3)
      | [] => (([] : List Char), r3)
    match takeDigitsN 3 r4 with
    | none => none
    | some (d2, r5) =>
      let (s2, r6) :=
        match r5 with
        | c :: r => if phoneSepCh c then ([c], r) else (([] : List Char), r5)
        | [] => (([] : List Char), r5)
      match takeDigitsN 4 r6 with
      | none => none
      | some (d3, _) => some (p1 ++ d1 ++ p2 ++ s1 ++ d2 ++ s2 ++ d3)

/-- Match the optional country-code group `(\+\d{1,3}[-.\s]?)?` followed by
the core, with the greedy `\d{1,3}` backtracking 3, 2, 1. -/
def tryPhoneCC (n : Nat) (r : List Char) : Option (List Char) :=
  match takeDigitsN n r with
  | none => none
  | some (d, r2) =>
    let (s, r3) :=
      match r2 with
      | c :: rr => if phoneSepCh c then ([c], rr) else (([] : List Char), r2)
      | [] => (([] : List Char), r2)
    (tryPhoneCore r3).map fun core => '+' :: (d ++ s ++ core)

def tryPhoneAt (cs : List Char) : Option (List Char) :=
  match cs with
  | '+' :: r => tryPhoneCC 3 r <|> tryPhoneCC 2 r <|> tryPhoneCC 1 r
  | _ => tryPhoneCore cs

/-- Leftmost match of the phone pattern
`(\+\d{1,3}[-.\s]?)?\(?\d{3}\)?[-.\s]?\d{3}[-.\s]?\d{4}`. -/
def searchPhone : List Char → Option String
  | [] => none
  | c :: cs =>
    match tryPhoneAt (c :: cs) with
    | some m => some (String.mk m)
    | none => searchPhone cs

/-- The name heuristic applied to one (already split) line: strip, require
2–4 whitespace-separated words, an uppercase first character, and none of
`@`, `http`, `/`, `\`. -/
def nameCandidate (line : String) : Option String :=
  let l := pystrip line
  let n := (pywords l).length
  if 2 ≤ n && n ≤ 4 then
    match l.toList with
    | c :: _ =>
      if c.isUpper && !strContains l ("@") && !strContains l ("http") &&
          !strContains l ("/") && !strContains l ("\\") then
        some l
      else none
    | [] => none
  else none

def nameScanLines : List String → String
  | [] => ""
  | line :: rest =>
    match nameCandidate line with
    | some n => n
    | none => nameScanLines rest

/-- `LLMEngine._extract_personal_info`. -/
def extract_personal_info (resume_text : String) : PersonalInfo :=
  { name := nameScanLines ((pysplitChar resume_text '\n').take 5),
    email := (emailScan none resume_text.toList).getD "",
    phone := (searchPhone resume_text.toList).getD "" }

/-! ### Response normalizer (`_extract_json_from_response`) -/

/-- Strategy-4 repair, part 2: `re.sub(r',(\s*[}\]])', r'\1', ...)` — drop a
comma directly preceding optional whitespace and a closing brace/bracket,
scanning left to right over non-overlapping matches (fuelled). -/
def fixTrailingCommasAux : Nat → List Char → List Char
  | 0, cs => cs
  | _ + 1, [] => []
  | fuel + 1, c :: cs =>
    if c = ',' then
      let ws := cs.takeWhile wsRe
      match cs.dropWhile wsRe with
      | b :: rest =>
        if b = rbrace || b = ']' then ws ++ b :: fixTrailingCommasAux fuel rest
        else c :: fixTrailingCommasAux fuel cs
      | [] => c :: fixTrailingCommasAux fuel cs
    else c :: fixTrailingCommasAux fuel cs

/-- Strategy-4 repair: single quotes to double quotes, then trailing commas. -/
def fixJsonIssues (s : String) : String :=
  let replaced := s.toList.map fun c => if c = Char.ofNat 0x27 then '"' else c
  String.mk (fixTrailingCommasAux (replaced.length + 1) replaced)

/-- Candidate 1 of the normalizer: the entire (stripped) text. -/
def candRaw (t : String) : String := t

/-- Candidate 2: the first fenced segment — `text.split("```")[1]`, with a
leading `json` tag removed and the result stripped; only attempted when the
text contains a fence.  (The `[1]` access cannot fail: a text containing
the separator splits into at least two parts.) -/
def candFenced (t : String) : Option String :=
  if strContains t ("```") then
    let seg := (pysplitStr t ("```")).getD 1 ("")
    let seg := if startsWithS seg ("json") then pydrop seg 4 else seg
    some (pystrip seg)
  else none

/-- Candidate 3: the substring from the first `{` to the last `}` inclusive
(`start != -1 and end > start` in the source). -/
def candBraces (t : String) : Option String :=
  let cs := t.toList
  match idxOfCh lbrace cs, lastIdxOfCh rbrace cs with
  | some i, some j => if i ≤ j then some (String.mk ((cs.drop i).take (j + 1 - i))) else none
  | _, _ => none

/-- Candidate 4: candidate 3 repaired by `fixJsonIssues`. -/
def candFixed (t : String) : Option String := (candBraces t).map fixJsonIssues

/-- `LLMEngine._extract_json_from_response`, translated with the control
flow of the source: strategies tried in order, first successful parse
returned (whatever JSON document it is), `{}` when all fail. -/
def extract_json_from_response (text : String) : PyVal :=
  if text = "" then PyVal.vDict []
  else
    let t := pystrip text
    match json_parse (candRaw t) with
    | some v => v
    | none =>
      match (candFenced t).bind json_parse with
      | some v => v
      | none =>
        match candBraces t with
        | some sub =>
          match json_parse sub with
          | some v => v
          | none =>
            match json_parse (fixJsonIssues sub) with
            | some v => v
            | none => PyVal.vDict []
        | none => PyVal.vDict []

/-- The ordered candidate shapes of the normalizer, as the specification
describes them. -/
def normalizerCandidates (text : String) : List String :=
  let t := pystrip text
  [candRaw t] ++ (candFenced t).toList ++ (candBraces t).toList ++ (candFixed t).toList

/-- First-success fold over the candidate shapes, defaulting to the empty
mapping: the specification's description of the normalizer. -/
def normalizerFirstSuccess (text : String) : PyVal :=
  (((normalizerCandidates text).filterMap json_parse).head?).getD (PyVal.vDict [])

/-! ### Result builder (`_build_result`) and prompt -/

/-- `LLMEngine._build_analysis_prompt`: the fixed template around the
resume truncated to 2000 characters and the job description truncated to
1500.  (The source file stores a mojibake `U+00C3 U+2014` where a `×` was
intended; reproduced as-is.) -/
def build_analysis_prompt (resume_text job_desc : String) : String :=
  let resume_snippet := pytake resume_text 2000
  let job_snippet := pytake job_desc 1500
  "You are an expert resume optimization specialist. Analyze this resume against the job description and extract REAL information.\n\nRESUME:\n" ++
  resume_snippet ++
  "\n\nJOB DESCRIPTION:\n" ++
  job_snippet ++
  "\n\nYOUR TASK:\n1. Extract the candidate\x27s actual skills from their resume (NOT generic placeholders)\n2. Identify 3-5 important keywords from the job description that are MISSING from the resume\n3. Calculate match score: (skills candidate has / skills job requires) Ã— 100\n4. Write a professional 2-3 sentence summary tailored to THIS job\n5. Generate 3-4 sentence cover letter highlighting relevant experience for THIS role\n\nRESPOND WITH ONLY VALID JSON (no markdown, no code blocks, no explanation):\n\x7b\n  \"skills\": [\"actual skill 1\", \"actual skill 2\", \"actual skill 3\", \"actual skill 4\", \"actual skill 5\"],\n  \"missing_keywords\": [\"missing keyword 1\", \"missing keyword 2\", \"missing keyword 3\"],\n  \"match_score\": 75,\n  \"summary\": \"Professional with X years of experience in Y, skilled in Z. Proven track record of ABC. Seeking to leverage expertise in DEF.\",\n  \"cover_letter\": \"I am excited to apply for this position. With my background in X and Y, I have successfully Z. I am confident I can contribute to your team by ABC.\"\n\x7d\n\nCRITICAL RULES:\n- Extract REAL skills from resume, not placeholders like \"Skill1, Skill2\"\n- match_score must be integer 0-100\n- missing_keywords should be specific technical skills/tools from job description\n- summary and cover_letter must be realistic and specific to this job, not generic templates\n- Output ONLY the JSON object, nothing else"

/-- The tail of `_build_result` after the parsed fields have been read: the
fallback policy (skills replaced wholesale when fewer than 3; summary and
cover letter replaced when empty; experience and education always
recomputed from the resume) and the record assembly. -/
def finalize (personal_info : PersonalInfo) (resume_text job_desc : String)
    (skills missing_keywords : List String) (match_score : Int)
    (summary cover_letter : String) : AnalysisResult :=
  { personal_info := personal_info,
    summary :=
      if summary = "" then generate_fallback_summary resume_text job_desc else summary,
    skills :=
      if skills.isEmpty || skills.length < 3 then extract_skills_fallback resume_text
      else skills,
    missing_keywords := missing_keywords,
    match_score := match_score,
    experience := extract_experience resume_text,
    education := extract_education resume_text,
    cover_letter :=
      if cover_letter = "" then
        generate_fallback_cover_letter personal_info.name job_desc
      else cover_letter }

def attributeErrorText : String :=
  "AttributeError: object has no attribute \x27get\x27"

/-- `LLMEngine._build_result`.  `if parsed:` guards the read of the parsed
fields; a truthy non-dict (possible, since `_extract_json_from_response`
returns whatever document parsed) raises `AttributeError` at `parsed.get`;
a score whose coercion raises propagates.  Field reads happen in source
order: skills, missing_keywords, match_score, summary, cover_letter. -/
def build_result (parsed : PyVal) (personal_info : PersonalInfo)
    (resume_text job_desc : String) : Except String AnalysisResult :=
  if pyTruthy parsed then
    match parsed with
    | .vDict kvs =>
      let skills := extract_list (dictGet kvs ("skills") (.vList []))
      let missing_keywords := extract_list (dictGet kvs ("missing_keywords") (.vList []))
      match extract_score (dictGet kvs ("match_score") (.vInt 0)) with
      | .error e => .error e
      | .ok match_score =>
        let summary := pystrip (pyStr (dictGet kvs ("summary") (.vStr "")))
        let cover_letter := pystrip (pyStr (dictGet kvs ("cover_letter") (.vStr "")))
        .ok (finalize personal_info resume_text job_desc skills missing_keywords
              match_score summary cover_letter)
    | _ => .error attributeErrorText
  else
    .ok (finalize personal_info resume_text job_desc [] [] 0 "" "")

/-! ### Orchestrator (`LLMEngine.analyze`)

The engine state is the in-process cache; the external model service is an
oracle with a liveness answer and a prompt-to-text generation map (the
black-box transport of the specification: `_test_ollama_connection` and the
streaming assembly of `_call_ollama`, whose result the source strips).
The model name is the constructor default `orca-mini:latest`. -/

structure EngineState where
  cache : List (String × AnalysisResult)
deriving DecidableEq

structure Oracle where
  connOk : Bool
  genResponse : String → Except String String

def cacheLookup : List (String × AnalysisResult) → String → Option AnalysisResult
  | [], _ => none
  | (k, v) :: rest, key => if k = key then some v else cacheLookup rest key

def cacheInsert :
    List (String × AnalysisResult) → String → AnalysisResult →
    List (String × AnalysisResult)
  | [], key, r => [(key, r)]
  | (k, v) :: rest, key, r =>
    if k = key then (key, r) :: rest else (k, v) :: cacheInsert rest key r

def connectivityErrorText : String :=
  "Cannot connect to Ollama. Please ensure:\n1. Ollama is installed\n2. Ollama service is running: ollama serve\n3. Model is downloaded: ollama pull orca-mini:latest"

def ollamaErrorText (e : String) : String :=
  "Ollama connection error: " ++ e ++ ". Ensure Ollama is running with: ollama serve"

/-- `LLMEngine.analyze`: cache check, connectivity probe, personal info,
prompt, model call, normalization, result build, cache write.  Returns the
outcome together with the state after the call; every error path leaves the
state unchanged. -/
def analyze (o : Oracle) (st : EngineState) (resume_text job_desc : String) :
    Except String AnalysisResult × EngineState :=
  let cache_key := get_cache_key resume_text job_desc
  match cacheLookup st.cache cache_key with
  | some r => (.ok r, st)
  | none =>
    if !o.connOk then (.error connectivityErrorText, st)
    else
      let personal_info := extract_personal_info resume_text
      let prompt := build_analysis_prompt resume_text job_desc
      match o.genResponse prompt with
      | .error e => (.error (ollamaErrorText e), st)
      | .ok raw =>
        let response := pystrip raw
        let parsed_data := extract_json_from_response response
        match build_result parsed_data personal_info resume_text job_desc with
        | .error e => (.error e, st)
        | .ok result => (.ok result, { cache := cacheInsert st.cache cache_key result })

/-! ### Small helpers used by the theorems -/

def exceptIsOk {α : Type} : Except String α → Bool
  | .ok _ => true
  | .error _ => false

def resultSkills : Except String AnalysisResult → List String
  | .ok r => r.skills
  | .error _ => []

def isDictVal : PyVal → Bool
  | .vDict _ => true
  | _ => false

/-! ### Shared lemmas -/

/-- `(if l = [] then [d] else l)[:n]` has between 1 and `n` elements. -/
theorem fallbackTake_len {α : Type} (l : List α) (d : α) (n : Nat) (hn : 1 ≤ n) :
    1 ≤ ((if l.isEmpty then [d] else l).take n).length ∧
      ((if l.isEmpty then [d] else l).take n).length ≤ n := by
  rcases l with _ | ⟨x, xs⟩
  · simp [List.length_take]
    omega
  · simp [List.length_take]
    omega

theorem extract_experience_len (rt : String) :
    1 ≤ (extract_experience rt).length ∧ (extract_experience rt).length ≤ 3 :=
  fallbackTake_len (expScanned rt) templateExperience 3 (by omega)

theorem extract_education_len (rt : String) :
    1 ≤ (extract_education rt).length ∧ (extract_education rt).length ≤ 2 :=
  fallbackTake_len (eduLoop (pysplitChar rt '\n') false []) templateEducation 2 (by omega)

/-- The skills fallback returns between 1 and 8 entries; the placeholder
triple exactly when no catalog term matches. -/
theorem extract_skills_fallback_spec (rt : String) :
    (1 ≤ (extract_skills_fallback rt).length ∧ (extract_skills_fallback rt).length ≤ 8) ∧
      ((common_skills.filter fun skill =>
          strContains (pyupper rt) (pyupper skill)).isEmpty = true →
        extract_skills_fallback rt =
          ["Technical Skills", "Problem Solving", "Team Collaboration"]) := by
  unfold extract_skills_fallback
  rcases h : common_skills.filter fun skill => strContains (pyupper rt) (pyupper skill) with
    _ | ⟨x, xs⟩
  · simp [h, List.length_take]
  · simp [h, List.length_take]

theorem extract_score_ok_bounds (v : PyVal) (n : Int)
    (h : extract_score v = .ok n) : 0 ≤ n ∧ n ≤ 100 := by
  unfold extract_score at h
  rcases hp : pyFloatOfString (pyStr v) with _ | f
  · rw [hp] at h; cases h; omega
  · rcases f with q | _ | _ | _ <;> rw [hp] at h <;> cases h
    · constructor
      · exact le_max_left 0 _
      · exact max_le (by omega) (min_le_left 100 _)
    · omega

theorem cacheLookup_insert (c : List (String × AnalysisResult)) (k : String)
    (r : AnalysisResult) : cacheLookup (cacheInsert c k r) k = some r := by
  induction c with
  | nil => simp [cacheInsert, cacheLookup]
  | cons kv rest ih =>
    obtain ⟨k', v⟩ := kv
    by_cases hk : k' = k <;> simp [cacheInsert, cacheLookup, hk, ih]

/-! ### Claim theorems -/

/-- Any successful run of `build_result` produced its record through
`finalize`: either the truthy-dict path with the coerced fields, or the
falsy path with all defaults. -/
theorem build_result_ok_shape
    (parsed : PyVal) (pinfo : PersonalInfo) (rt jd : String) (res : AnalysisResult)
    (h : build_result parsed pinfo rt jd = .ok res) :
    (∃ kvs, parsed = .vDict kvs ∧
      ∃ n, extract_score (dictGet kvs ("match_score") (.vInt 0)) = .ok n ∧
        res = finalize pinfo rt jd (extract_list (dictGet kvs ("skills") (.vList [])))
          (extract_list (dictGet kvs ("missing_keywords") (.vList []))) n
          (pystrip (pyStr (dictGet kvs ("summary") (.vStr ""))))
          (pystrip (pyStr (dictGet kvs ("cover_letter") (.vStr ""))))) ∨
    (pyTruthy parsed = false ∧ res = finalize pinfo rt jd [] [] 0 ("") ("")) := by
  cases parsed with
  | vDict kvs =>
    unfold build_result at h
    split at h
    next ht =>
      rcases hs : extract_score (dictGet kvs ("match_score") (.vInt 0)) with e | n <;>
        simp only [hs] at h
      · cases h
      · cases h
        exact Or.inl ⟨kvs, rfl, n, hs, rfl⟩
    next ht =>
      cases h
      exact Or.inr ⟨by simpa using ht, rfl⟩
  | vNone =>
    unfold build_result at h
    split at h
    next ht => cases h
    next ht => cases h; exact Or.inr ⟨by simpa using ht, rfl⟩
  | vBool b =>
    unfold build_result at h
    split at h
    next ht => cases h
    next ht => cases h; exact Or.inr ⟨by simpa using ht, rfl⟩
  | vInt n =>
    unfold build_result at h
    split at h
    next ht => cases h
    next ht => cases h; exact Or.inr ⟨by simpa using ht, rfl⟩
  | vFloat f =>
    unfold build_result at h
    split at h
    next ht => cases h
    next ht => cases h; exact Or.inr ⟨by simpa using ht, rfl⟩
  | vStr s =>
    unfold build_result at h
    split at h
    next ht => cases h
    next ht => cases h; exact Or.inr ⟨by simpa using ht, rfl⟩
  | vList xs =>
    unfold build_result at h
    split at h
    next ht => cases h
    next ht => cases h; exact Or.inr ⟨by simpa using ht, rfl⟩

/-- C4: for every parsed value, personal info, resume text and job
description on which the Result Builder succeeds, the experience and
education fields of the built record equal the fallback extractors applied
to the resume text; values supplied in the parsed mapping are never
consulted for these two fields. -/
theorem build_result_overwrites_sections
    (parsed : PyVal) (pinfo : PersonalInfo) (rt jd : String) (res : AnalysisResult)
    (h : build_result parsed pinfo rt jd = .ok res) :
    res.experience = extract_experience rt ∧ res.education = extract_education rt := by
  rcases build_result_ok_shape parsed pinfo rt jd res h with
    ⟨kvs, _, n, _, hres⟩ | ⟨_, hres⟩ <;> rw [hres] <;> exact ⟨rfl, rfl⟩

/-- C4, witness: concrete instance with the empty mapping. -/
theorem build_result_overwrites_sections_witness :
    (finalize ⟨"", "", ""⟩ ("") ("") [] [] 0 ("") ("")).experience = extract_experience ("") ∧
      (finalize ⟨"", "", ""⟩ ("") ("") [] [] 0 ("") ("")).education = extract_education ("") :=
  build_result_overwrites_sections (.vDict []) ⟨"", "", ""⟩ ("") ("") _ rfl

/-- C9: the experience fallback extractor returns between 1 and 3 entries
and the education fallback extractor between 1 and 2, so the experience and
education fields of every record assembled by the Result Builder are
non-empty. -/
theorem extractors_populated (rt : String) :
    (1 ≤ (extract_experience rt).length ∧ (extract_experience rt).length ≤ 3) ∧
    (1 ≤ (extract_education rt).length ∧ (extract_education rt).length ≤ 2) ∧
    ∀ (pinfo : PersonalInfo) (jd : String) (sk mk : List String) (ms : Int) (su cl : String),
      1 ≤ (finalize pinfo rt jd sk mk ms su cl).experience.length ∧
        1 ≤ (finalize pinfo rt jd sk mk ms su cl).education.length :=
  ⟨extract_experience_len rt, extract_education_len rt,
    fun _ _ _ _ _ _ _ => ⟨(extract_experience_len rt).1, (extract_education_len rt).1⟩⟩

/-- C1 (amended): for every ParsedFields mapping whose `match_score` entry
does not stringify-parse to an infinite float, the Result Builder succeeds
and returns a record (all eight fields present by type) with
`match_score ∈ [0, 100]`, at most 3 experience entries and at most 2
education entries; when the entry stringifies to an infinity, the score
coercion raises an uncaught `OverflowError` and the builder fails. -/
theorem build_result_total_wellformed
    (kvs : List (String × PyVal)) (pinfo : PersonalInfo) (rt jd : String)
    (h : exceptIsOk (extract_score (dictGet kvs ("match_score") (.vInt 0))) = true) :
    ∃ res : AnalysisResult, build_result (.vDict kvs) pinfo rt jd = .ok res ∧
      0 ≤ res.match_score ∧ res.match_score ≤ 100 ∧
      res.experience.length ≤ 3 ∧ res.education.length ≤ 2 := by
  by_cases ht : pyTruthy (PyVal.vDict kvs)
  · rcases hs : extract_score (dictGet kvs ("match_score") (.vInt 0)) with e | n
    · rw [hs] at h; simp [exceptIsOk] at h
    · refine ⟨finalize pinfo rt jd (extract_list (dictGet kvs ("skills") (.vList [])))
        (extract_list (dictGet kvs ("missing_keywords") (.vList []))) n
        (pystrip (pyStr (dictGet kvs ("summary") (.vStr ""))))
        (pystrip (pyStr (dictGet kvs ("cover_letter") (.vStr "")))), ?_, ?_, ?_, ?_, ?_⟩
      · simp only [build_result, if_pos ht, hs]
      · exact (extract_score_ok_bounds _ _ hs).1
      · exact (extract_score_ok_bounds _ _ hs).2
      · exact (extract_experience_len rt).2
      · exact (extract_education_len rt).2
  · refine ⟨finalize pinfo rt jd [] [] 0 ("") (""), ?_, le_refl 0,
      (by norm_num : (0 : Int) ≤ 100), ?_, ?_⟩
    · simp only [build_result, if_neg ht]
    · exact (extract_experience_len rt).2
    · exact (extract_education_len rt).2

/-- C1 (amended), witness: the empty mapping. -/
theorem build_result_total_wellformed_witness :
    ∃ res : AnalysisResult, build_result (.vDict []) ⟨"", "", ""⟩ ("") ("") = .ok res ∧
      0 ≤ res.match_score ∧ res.match_score ≤ 100 ∧
      res.experience.length ≤ 3 ∧ res.education.length ≤ 2 :=
  build_result_total_wellformed [] ⟨"", "", ""⟩ ("") ("") rfl

/-- C1, counterexample to the claim as stated: on the ParsedFields mapping
`{"match_score": "inf"}` the Result Builder does not return a record — the
score coercion's uncaught `OverflowError` escapes. -/
theorem build_result_overflow_counterexample :
    build_result (.vDict [("match_score", .vStr "inf")]) ⟨"", "", ""⟩ ("") ("") =
      .error overflowErrorText := rfl

/-- The skills-policy arithmetic at the level of `finalize`. -/
theorem finalize_skills_facts (pinfo : PersonalInfo) (rt jd : String)
    (sk mk : List String) (ms : Int) (su cl : String) :
    1 ≤ (finalize pinfo rt jd sk mk ms su cl).skills.length ∧
      (sk.length < 3 → (finalize pinfo rt jd sk mk ms su cl).skills =
        extract_skills_fallback rt) := by
  show 1 ≤ (if sk.isEmpty || sk.length < 3 then extract_skills_fallback rt else sk).length ∧
    (sk.length < 3 → (if sk.isEmpty || sk.length < 3 then extract_skills_fallback rt else sk) =
      extract_skills_fallback rt)
  by_cases hc : (sk.isEmpty || sk.length < 3 : Bool) = true
  · rw [if_pos hc]
    exact ⟨((extract_skills_fallback_spec rt).1).1, fun _ => rfl⟩
  · rw [if_neg hc]
    simp only [Bool.or_eq_true, decide_eq_true_eq, not_or, List.isEmpty_eq_true] at hc
    exact ⟨by omega, fun hlt => absurd hlt hc.2⟩

/-- C3 (amended): the skills field of every successfully built record has at
least one entry; whenever the coerced model-derived skill list has fewer
than 3 entries it is discarded and replaced wholesale by the skills
fallback, which returns between 1 and 8 case-insensitive catalog matches
from the resume text, or exactly the 3-item generic placeholder sequence
when no catalog term matches. -/
theorem build_result_skills_policy
    (kvs : List (String × PyVal)) (pinfo : PersonalInfo) (rt jd : String)
    (res : AnalysisResult) (h : build_result (.vDict kvs) pinfo rt jd = .ok res) :
    1 ≤ res.skills.length ∧
    ((extract_list (dictGet kvs ("skills") (.vList []))).length < 3 →
      res.skills = extract_skills_fallback rt) ∧
    (1 ≤ (extract_skills_fallback rt).length ∧ (extract_skills_fallback rt).length ≤ 8) ∧
    ((common_skills.filter fun skill =>
        strContains (pyupper rt) (pyupper skill)).isEmpty = true →
      extract_skills_fallback rt =
        ["Technical Skills", "Problem Solving", "Team Collaboration"]) := by
  rcases build_result_ok_shape _ pinfo rt jd res h with
    ⟨kvs', heq, n, hn, hres⟩ | ⟨ht, hres⟩
  · cases heq
    rw [hres]
    exact ⟨(finalize_skills_facts ..).1, (finalize_skills_facts ..).2,
      (extract_skills_fallback_spec rt).1, (extract_skills_fallback_spec rt).2⟩
  · have hk : kvs = [] := by
      simpa [pyTruthy, List.isEmpty_eq_true] using ht
    subst hk
    rw [hres]
    refine ⟨(finalize_skills_facts ..).1, fun _ => ?_,
      (extract_skills_fallback_spec rt).1, (extract_skills_fallback_spec rt).2⟩
    exact (finalize_skills_facts pinfo rt jd [] [] 0 ("") ("")).2 (by simp)

/-- C3 (amended), witness: empty mapping, empty resume. -/
theorem build_result_skills_policy_witness :
    1 ≤ (finalize ⟨"", "", ""⟩ ("") ("") [] [] 0 ("") ("")).skills.length :=
  (build_result_skills_policy [] ⟨"", "", ""⟩ ("") ("") _ rfl).1

/-- C3, counterexample to the claim as stated: on the resume text
`"Python"` with an empty ParsedFields mapping, the fallback finds exactly
one catalog match, so the built record's skills field has a single entry —
fewer than the 3 the claim guarantees. -/
theorem build_result_skills_min3_counterexample :
    resultSkills (build_result (.vDict []) ⟨"", "", ""⟩ ("Python") ("")) = ["Python"] ∧
      (["Python"] : List String).length < 3 := ⟨rfl, by decide⟩

/-- C5 (amended): score coercion is total except on values whose
stringification parses as an infinite float: a finite-convertible value is
truncated toward zero and clamped into `[0, 100]`; a non-convertible value
(or NaN) yields 0; an infinite value raises an uncaught `OverflowError`. -/
theorem extract_score_cases (v : PyVal) :
    (pyFloatOfString (pyStr v) = none → extract_score v = .ok 0) ∧
    (pyFloatOfString (pyStr v) = some PyFloat.nan → extract_score v = .ok 0) ∧
    (∀ q : ℚ, pyFloatOfString (pyStr v) = some (PyFloat.finite q) →
      extract_score v = .ok (max 0 (min 100 (truncQ q))) ∧
        0 ≤ max 0 (min 100 (truncQ q)) ∧ max 0 (min 100 (truncQ q)) ≤ 100) ∧
    (pyFloatOfString (pyStr v) = some PyFloat.inf →
      extract_score v = .error overflowErrorText) ∧
    (pyFloatOfString (pyStr v) = some PyFloat.neginf →
      extract_score v = .error overflowErrorText) := by
  refine ⟨fun h => ?_, fun h => ?_, fun q h => ⟨?_, ?_, ?_⟩, fun h => ?_, fun h => ?_⟩ <;>
    first
      | (unfold extract_score; rw [h])
      | exact le_max_left 0 _
      | exact max_le (by norm_num) (min_le_left 100 _)

/-- C5 (amended), witness: the four specified examples, derived from the
case theorem at concrete inputs. -/
theorem extract_score_cases_witness :
    extract_score (.vStr "150") = .ok 100 ∧ extract_score (.vStr "-5") = .ok 0 ∧
      extract_score (.vStr "abc") = .ok 0 ∧ extract_score (.vStr "73.9") = .ok 73 := by
  have h150 : pyFloatOfString (pyStr (PyVal.vStr "150")) =
      some (PyFloat.finite (mkRat 150 1)) := rfl
  have hm5 : pyFloatOfString (pyStr (PyVal.vStr "-5")) =
      some (PyFloat.finite (mkRat (-5) 1)) := rfl
  have habc : pyFloatOfString (pyStr (PyVal.vStr "abc")) = none := rfl
  have h739 : pyFloatOfString (pyStr (PyVal.vStr "73.9")) =
      some (PyFloat.finite (mkRat 739 10)) := rfl
  refine ⟨?_, ?_, ?_, ?_⟩
  · exact (((extract_score_cases (.vStr "150")).2.2.1 (mkRat 150 1) h150).1).trans (by rfl)
  · exact (((extract_score_cases (.vStr "-5")).2.2.1 (mkRat (-5) 1) hm5).1).trans (by rfl)
  · exact (extract_score_cases (.vStr "abc")).1 habc
  · exact (((extract_score_cases (.vStr "73.9")).2.2.1 (mkRat 739 10) h739).1).trans (by rfl)

/-- C5, counterexample to the claim as stated: `"inf"` converts to a float,
yet the coercion does not return a clamped integer — the `OverflowError`
raised by `int(float("inf"))` is not caught by the
`except (ValueError, TypeError)` handler. -/
theorem extract_score_inf_counterexample :
    extract_score (.vStr "inf") = .error overflowErrorText ∧
      pyFloatOfString ("inf") = some PyFloat.inf := ⟨rfl, rfl⟩

/-- C6 (amended): list coercion never throws; a sequence input maps to its
items converted to trimmed text, dropping the items that are Python-falsy
(`None`, `False`, `0`, `0.0`, empty containers, empty strings) together
with those whose trimmed text is empty; a scalar text input is split on
commas, trimmed, empties dropped; any other input yields the empty list. -/
theorem extract_list_characterization :
    (∀ xs : List PyVal, extract_list (.vList xs) =
      (xs.filter fun x => pyTruthy x && pystrip (pyStr x) ≠ "").map
        fun x => pystrip (pyStr x)) ∧
    (∀ s : String, extract_list (.vStr s) =
      ((pysplitChar s ',').map pystrip).filter fun x => x ≠ "") ∧
    (∀ b, extract_list (.vBool b) = []) ∧ (∀ n : Int, extract_list (.vInt n) = []) ∧
    (∀ f, extract_list (.vFloat f) = []) ∧ extract_list .vNone = [] ∧
    (∀ kvs, extract_list (.vDict kvs) = []) ∧
    extract_list (.vList [.vStr "a", .vStr "", .vStr "b "]) = ["a", "b"] ∧
    extract_list (.vStr "a, b ,c") = ["a", "b", "c"] ∧
    extract_list (.vInt 42) = [] := by
  have consL : ∀ (x : PyVal) (xs : List PyVal), extractListItems (x :: xs) =
      if pyTruthy x && pystrip (pyStr x) ≠ "" then
        pystrip (pyStr x) :: extractListItems xs
      else extractListItems xs := fun _ _ => rfl
  have consC : ∀ (x : String) (xs : List String), extractCommaItems (x :: xs) =
      if pystrip x ≠ "" then pystrip x :: extractCommaItems xs
      else extractCommaItems xs := fun _ _ => rfl
  refine ⟨fun xs => ?_, fun s => ?_, fun b => rfl, fun n => rfl, fun f => rfl, rfl,
    fun kvs => rfl, rfl, rfl, rfl⟩
  · show extractListItems xs = _
    induction xs with
    | nil => rfl
    | cons x tail ih =>
      rw [consL, List.filter_cons]
      by_cases hx : (pyTruthy x && pystrip (pyStr x) ≠ "" : Bool) = true
      · rw [if_pos hx, if_pos hx, List.map_cons, ih]
      · rw [if_neg hx, if_neg hx, ih]
  · show extractCommaItems (pysplitChar s ',') = _
    induction pysplitChar s ',' with
    | nil => rfl
    | cons x tail ih =>
      rw [consC, List.map_cons, List.filter_cons]
      by_cases hx : pystrip x ≠ ""
      · rw [if_pos hx, if_pos (decide_eq_true hx), ih]
      · rw [if_neg hx, if_neg (by simpa using hx), ih]

/-- C6, counterexample to the claim as stated: the item `0` is dropped from
a sequence even though its trimmed text `"0"` is not empty — the coercion
filters on Python truthiness, not only on emptiness of the converted
text. -/
theorem extract_list_falsy_counterexample :
    extract_list (.vList [.vInt 0]) = [] ∧ pystrip (pyStr (.vInt 0)) = "0" := ⟨rfl, rfl⟩

/-- C8 (amended): the cache key is a deterministic function of exactly the
first 1000 characters of the resume text and the first 500 characters of
the job description — agreement on those two prefixes forces an identical
key, so characters beyond them never influence it. -/
theorem cache_key_prefix_determined (rt jd rt' jd' : String)
    (h1 : pytake rt 1000 = pytake rt' 1000) (h2 : pytake jd 500 = pytake jd' 500) :
    get_cache_key rt jd = get_cache_key rt' jd' := by
  unfold get_cache_key
  rw [h1, h2]

/-- C8 (amended), witness: two resume texts of length 1001 agreeing on the
first 1000 characters. -/
theorem cache_key_prefix_determined_witness :
    get_cache_key (String.mk (List.replicate 1001 'a')) ("jd") =
      get_cache_key (String.mk (List.replicate 1000 'a' ++ ['b'])) ("jd") :=
  cache_key_prefix_determined _ _ _ _ (by rfl) rfl

/-- C8, counterexample to the claim as stated: the digest input joins the
two prefixes with a bare `"|"`, so the pair of prefixes is not recoverable
from it — the distinct requests `("a|b", "")` and `("a", "b|")` collide
with certainty, not merely with the digest's collision probability. -/
theorem cache_key_separator_counterexample :
    get_cache_key ("a|b") ("") = get_cache_key ("a") ("b|") ∧
      ¬(("a|b", "") = (("a", "b|") : String × String)) := ⟨rfl, by decide⟩

/-- C7: a second `analyze` call with byte-identical inputs after any
successful call returns the identical record from the cache at state 0 and
leaves the state unchanged; the second call's outcome is the same for every
oracle, i.e. neither the connectivity probe nor the generation call is
consulted on the warm-cache path. -/
theorem analyze_cached_idempotent (o : Oracle) (st : EngineState) (rt jd : String)
    (r : AnalysisResult) (st' : EngineState)
    (h : analyze o st rt jd = (.ok r, st')) :
    ∀ o' : Oracle, analyze o' st' rt jd = (.ok r, st') := by
  intro o'
  unfold analyze at h ⊢
  rcases hc : cacheLookup st.cache (get_cache_key rt jd) with _ | r0 <;>
    simp only [hc] at h
  · split at h
    · simp at h
    · rcases hg : o.genResponse (build_analysis_prompt rt jd) with e | raw <;>
        simp only [hg] at h
      · simp at h
      · rcases hb : build_result (extract_json_from_response (pystrip raw))
            (extract_personal_info rt) rt jd with e | result <;>
          simp only [hb] at h
        · simp at h
        · obtain ⟨h1, h2⟩ := Prod.mk.injEq .. ▸ h
          cases h1
          cases h2
          simp [cacheLookup_insert]
  · obtain ⟨h1, h2⟩ := Prod.mk.injEq .. ▸ h
    cases h1
    cases h2
    simp [hc]

/-- C7, witness: a first call on an empty cache with a live oracle, then a
second call against a dead oracle returning the cached record. -/
theorem analyze_cached_idempotent_witness :
    analyze ⟨false, fun _ => .error ("down")⟩
      ⟨[(get_cache_key ("") (""), finalize ⟨"", "", ""⟩ ("") ("") [] [] 0 ("") (""))]⟩
      ("") ("") =
      (.ok (finalize ⟨"", "", ""⟩ ("") ("") [] [] 0 ("") ("")),
        ⟨[(get_cache_key ("") (""), finalize ⟨"", "", ""⟩ ("") ("") [] [] 0 ("") (""))]⟩) :=
  analyze_cached_idempotent ⟨true, fun _ => .ok ("")⟩ ⟨[]⟩ ("") ("") _ _ rfl
    ⟨false, fun _ => .error ("down")⟩

/-- C10: the cache is written only with the complete record of a successful
call — every error outcome (cold cache with a failed connectivity probe, or
a transport error from the generation call, or any other failure) leaves
the engine state unchanged, and those two probe/transport failures do raise
the corresponding errors. -/
theorem analyze_error_atomic (o : Oracle) (st : EngineState) (rt jd : String) :
    (∀ e, (analyze o st rt jd).1 = .error e → (analyze o st rt jd).2 = st) ∧
    (∀ r, (analyze o st rt jd).1 = .ok r →
      ((analyze o st rt jd).2 = st ∧
          cacheLookup st.cache (get_cache_key rt jd) = some r) ∨
        (analyze o st rt jd).2 =
          ⟨cacheInsert st.cache (get_cache_key rt jd) r⟩) ∧
    (cacheLookup st.cache (get_cache_key rt jd) = none → o.connOk = false →
      analyze o st rt jd = (.error connectivityErrorText, st)) ∧
    (∀ e, cacheLookup st.cache (get_cache_key rt jd) = none → o.connOk = true →
      o.genResponse (build_analysis_prompt rt jd) = .error e →
      analyze o st rt jd = (.error (ollamaErrorText e), st)) := by
  rcases hc : cacheLookup st.cache (get_cache_key rt jd) with _ | r0
  · by_cases hcn : o.connOk
    · rcases hg : o.genResponse (build_analysis_prompt rt jd) with e | raw
      · have hEq : analyze o st rt jd = (.error (ollamaErrorText e), st) := by
          unfold analyze; simp [hc, hcn, hg]
        refine ⟨?_, ?_, ?_, ?_⟩
        · intro e' _
          rw [hEq]
        · intro r hr
          rw [hEq] at hr
          cases hr
        · intro _ hfalse
          rw [hfalse] at hcn
          cases hcn
        · intro e' _ _ hg'
          cases hg'
          exact hEq
      · rcases hb : build_result (extract_json_from_response (pystrip raw))
            (extract_personal_info rt) rt jd with e | result
        · have hEq : analyze o st rt jd = (.error e, st) := by
            unfold analyze; simp [hc, hcn, hg, hb]
          refine ⟨?_, ?_, ?_, ?_⟩
          · intro e' _
            rw [hEq]
          · intro r hr
            rw [hEq] at hr
            cases hr
          · intro _ hfalse
            rw [hfalse] at hcn
            cases hcn
          · intro e' _ _ hg'
            cases hg'
        · have hEq : analyze o st rt jd =
              (.ok result, ⟨cacheInsert st.cache (get_cache_key rt jd) result⟩) := by
            unfold analyze; simp [hc, hcn, hg, hb]
          refine ⟨?_, ?_, ?_, ?_⟩
          · intro e' he
            rw [hEq] at he
            cases he
          · intro r hr
            rw [hEq] at hr ⊢
            cases hr
            exact Or.inr rfl
          · intro _ hfalse
            rw [hfalse] at hcn
            cases hcn
          · intro e' _ _ hg'
            cases hg'
    · have hcn' : o.connOk = false := by simpa using hcn
      have hEq : analyze o st rt jd = (.error connectivityErrorText, st) := by
        unfold analyze; simp [hc, hcn']
      refine ⟨?_, ?_, ?_, ?_⟩
      · intro e' _
        rw [hEq]
      · intro r hr
        rw [hEq] at hr
        cases hr
      · intro _ _
        exact hEq
      · intro e' _ htrue _
        rw [htrue] at hcn'
        cases hcn'
  · have hEq : analyze o st rt jd = (.ok r0, st) := by
      unfold analyze; simp [hc]
    refine ⟨?_, ?_, ?_, ?_⟩
    · intro e he
      rw [hEq] at he
      cases he
    · intro r hr
      rw [hEq] at hr ⊢
      cases hr
      exact Or.inl ⟨rfl, rfl⟩
    · intro hnone _
      cases hnone
    · intro e hnone _ _
      cases hnone

/-- C10, witness: cold cache, dead connectivity probe — the call errors and
the state is unchanged. -/
theorem analyze_error_atomic_witness :
    analyze ⟨false, fun _ => .error ("boom")⟩ ⟨[]⟩ ("r") ("j") =
      (.error connectivityErrorText, ⟨[]⟩) :=
  (analyze_error_atomic ⟨false, fun _ => .error ("boom")⟩ ⟨[]⟩ ("r") ("j")).2.2.1 rfl rfl

/-- C2 (amended): the Response Normalizer terminates on every input and
equals the first-success fold of `json_parse` over the four candidate
shapes (entire stripped text; first fenced segment with a leading `json`
tag stripped, attempted only when a fence occurs; first `{` to last `}`
inclusive; that substring with quotes and trailing commas repaired),
defaulting to the empty mapping when every shape fails — so an embedded
valid document is recovered exactly, but the result is a mapping only when
the first successfully parsed document is an object. -/
theorem normalizer_first_success_refinement (text : String) :
    extract_json_from_response text = normalizerFirstSuccess text := by
  by_cases hE : text = ""
  · subst hE
    rfl
  · unfold extract_json_from_response normalizerFirstSuccess normalizerCandidates candRaw candFixed
    rw [if_neg hE]
    rcases h1 : json_parse (pystrip text) with _ | v
    · rcases h2 : candFenced (pystrip text) with _ | c
      · rcases h3 : candBraces (pystrip text) with _ | sub
        · simp [h1, h2, h3]
        · rcases h4 : json_parse sub with _ | v4
          · rcases h5 : json_parse (fixJsonIssues sub) with _ | v5
            · simp [h1, h2, h3, h4, h5]
            · simp [h1, h2, h3, h4, h5]
          · simp [h1, h2, h3, h4]
      · rcases h2p : json_parse c with _ | v2
        · rcases h3 : candBraces (pystrip text) with _ | sub
          · simp [h1, h2, h2p, h3]
          · rcases h4 : json_parse sub with _ | v4
            · rcases h5 : json_parse (fixJsonIssues sub) with _ | v5
              · simp [h1, h2, h2p, h3, h4, h5]
              · simp [h1, h2, h2p, h3, h4, h5]
            · simp [h1, h2, h2p, h3, h4]
        · simp [h1, h2, h2p]
    · simp [h1]

/-- C2, counterexample to the claim as stated: on the raw text `"42"` the
normalizer returns the parsed document `42`, which is not a mapping — the
first strategy returns whatever `json.loads` produced. -/
theorem normalizer_nonmapping_counterexample :
    extract_json_from_response ("42") = PyVal.vInt 42 ∧
      isDictVal (extract_json_from_response ("42")) = false := ⟨rfl, rfl⟩

end ResumeMatcher
